import Mathlib

/-!
# Verification model of the `noisy` decoy crawler

A shallow embedding of `src/noisy.py` (and the configuration semantics of
`src/settings.py`) of the repository `kunansy/noisy`, together with theorems
checking the natural-language specification's claims against it.

Modelling conventions:
* Python strings are Lean `String`s; character-level work happens on `List Char`.
* Machine behaviour of the Python regexes used by the crawler is compiled,
  construct by construct, into executable backtracking matchers (ASCII model of
  `re.IGNORECASE`, `\d`, `\S`; Unicode-only case foldings are out of scope).
* `urllib.parse` (`urlparse`, `urljoin`) is an external collaborator of the
  code under `src/`; it is modelled from the CPython 3.10.12
  `Lib/urllib/parse.py` semantics (WHATWG stripping of leading control/space
  characters, removal of tab/CR/LF, the "Invalid IPv6 URL" bracket check).
  The NFKC `_checknetloc` check only concerns non-ASCII netlocs and is a no-op
  in this ASCII model.
* Wall-clock instants (`datetime.datetime.now()`, `_start_time`) are integers
  (seconds); `datetime.timedelta(seconds=t)` is integer addition.
* Randomness (`random.choice`, fetched page bodies, clock readings) is an
  oracle: an environment function supplied per hop / per session iteration.
* Exceptions are explicit: `Except`, or dedicated result constructors.
-/

namespace Noisy

/-! ### ASCII character helpers -/

/-- ASCII lower-casing, the ASCII fragment of Python's `str.lower` /
`re.IGNORECASE`. -/
def toLowerAsc (c : Char) : Char :=
  if 'A' ≤ c ∧ c ≤ 'Z' then Char.ofNat (c.toNat + 32) else c

/-- `[A-Za-z]` (the regex class `[A-Z]` under `re.IGNORECASE`). -/
def isAlphaAsc (c : Char) : Bool :=
  (decide ('A' ≤ c) && decide (c ≤ 'Z')) || (decide ('a' ≤ c) && decide (c ≤ 'z'))

/-- `\d`, ASCII model. -/
def isDigitAsc (c : Char) : Bool := decide ('0' ≤ c) && decide (c ≤ '9')

/-- `[A-Z0-9]` under `re.IGNORECASE`. -/
def isAlnumAsc (c : Char) : Bool := isAlphaAsc c || isDigitAsc c

/-- `[A-Z0-9-]` under `re.IGNORECASE`. -/
def isAlnumHy (c : Char) : Bool := isAlnumAsc c || decide (c = '-')

/-- `\S`, ASCII model (not one of space, tab, newline, CR, VT, FF). -/
def notSpace (c : Char) : Bool :=
  !(decide (c = ' ') || decide (c = '\t') || decide (c = '\n') ||
    decide (c = '\r') || decide (c = '\x0b') || decide (c = '\x0c'))

/-- Python's substring containment `needle in hay` on character lists. -/
def containsSub : List Char → List Char → Bool
  | [], needle => needle.isEmpty
  | h :: t, needle => needle.isPrefixOf (h :: t) || containsSub t needle

/-! ### The URL validity regex (`Crawler._is_valid_url`, noisy.py lines 76-92)

The source compiles, with `re.IGNORECASE`, the pattern

    ^(?:http|ftp)s?://
    (?:(?:[A-Z0-9](?:[A-Z0-9-]{0,61}[A-Z0-9])?\.)+(?:[A-Z]{2,6}\.?|[A-Z0-9-]{2,}\.?)|
    \d{1,3}\.\d{1,3}\.\d{1,3}\.\d{1,3})
    (?::\d+)?
    (?:/?|[/?]\S+)$

and `re.match`es it against the candidate.  The matcher below is a direct
continuation-passing transcription with full backtracking.  Repetitions over a
single character class take every feasible count; the `(?:...\.)+` label loop
is fuel-bounded by the input length (each iteration consumes at least two
characters, so the fuel is never the binding constraint). -/

/-- Case-insensitive literal: `litCI pat cs k` matches `pat` (given lower-case)
at the head of `cs` and passes the rest to `k`. -/
def litCI : List Char → List Char → (List Char → Bool) → Bool
  | [], cs, k => k cs
  | _ :: _, [], _ => false
  | p :: ps, c :: cs, k => decide (toLowerAsc c = p) && litCI ps cs k

/-- A repetition `cls{lo,hi}` (with `hi = none` for `{lo,}`) over a character
class, trying every feasible count (backtracking). -/
def repCls (p : Char → Bool) (lo : Nat) (hi : Option Nat) (cs : List Char)
    (k : List Char → Bool) : Bool :=
  let run := (cs.takeWhile p).length
  let top := match hi with
    | none => run
    | some h => min h run
  decide (lo ≤ top) && (List.range (top + 1 - lo)).any (fun i => k (cs.drop (lo + i)))

/-- Match one literal character, then continue. -/
def chrThen (c : Char) (cs : List Char) (k : List Char → Bool) : Bool :=
  match cs with
  | [] => false
  | d :: r => decide (d = c) && k r

/-- One domain label followed by a dot:
`[A-Z0-9](?:[A-Z0-9-]{0,61}[A-Z0-9])?\.` (IGNORECASE). -/
def labelDot (cs : List Char) (k : List Char → Bool) : Bool :=
  match cs with
  | [] => false
  | c :: rest =>
    isAlnumAsc c &&
      (chrThen '.' rest k ||
        repCls isAlnumHy 0 (some 61) rest (fun r2 =>
          match r2 with
          | [] => false
          | d :: r3 => isAlnumAsc d && chrThen '.' r3 k))

/-- The `(?:label\.)+` loop: at least one label, any number more, each
continuation point offered to `k`.  `n` is fuel (each label consumes ≥ 2
characters, so fuel `|cs| + 1` is never exhausted first). -/
def labelsLoop : Nat → List Char → (List Char → Bool) → Bool
  | 0, _, _ => false
  | n + 1, cs, k => labelDot cs (fun rest => k rest || labelsLoop n rest k)

/-- The final domain component `(?:[A-Z]{2,6}\.?|[A-Z0-9-]{2,}\.?)`. -/
def finalPart (cs : List Char) (k : List Char → Bool) : Bool :=
  repCls isAlphaAsc 2 (some 6) cs (fun r => k r || chrThen '.' r k) ||
  repCls isAlnumHy 2 none cs (fun r => k r || chrThen '.' r k)

/-- The domain alternative of the host part. -/
def domainPart (cs : List Char) (k : List Char → Bool) : Bool :=
  labelsLoop (cs.length + 1) cs (fun rest => finalPart rest k)

/-- `\d{1,3}` -/
def ipNum (cs : List Char) (k : List Char → Bool) : Bool :=
  repCls isDigitAsc 1 (some 3) cs k

/-- The dotted-quad alternative `\d{1,3}\.\d{1,3}\.\d{1,3}\.\d{1,3}`. -/
def ipPart (cs : List Char) (k : List Char → Bool) : Bool :=
  ipNum cs (fun r1 => chrThen '.' r1 (fun r2 =>
    ipNum r2 (fun r3 => chrThen '.' r3 (fun r4 =>
      ipNum r4 (fun r5 => chrThen '.' r5 (fun r6 => ipNum r6 k))))))

/-- Host: domain or IP. -/
def hostPart (cs : List Char) (k : List Char → Bool) : Bool :=
  domainPart cs k || ipPart cs k

/-- Optional port `(?::\d+)?`. -/
def portPart (cs : List Char) (k : List Char → Bool) : Bool :=
  k cs ||
    (match cs with
     | ':' :: r => repCls isDigitAsc 1 none r k
     | _ => false)

/-- Trailing `(?:/?|[/?]\S+)$`. -/
def tailPart (cs : List Char) : Bool :=
  cs.isEmpty || (cs == ['/']) ||
    (match cs with
     | [] => false
     | c :: r => (decide (c = '/') || decide (c = '?')) && !r.isEmpty && r.all notSpace)

/-- Scheme `(?:http|ftp)s?://` (IGNORECASE). -/
def schemePart (cs : List Char) (k : List Char → Bool) : Bool :=
  litCI "http://".data cs k || litCI "https://".data cs k ||
  litCI "ftp://".data cs k || litCI "ftps://".data cs k

/-- The anchored pattern applied to a full character list. -/
def urlRegexCore (cs : List Char) : Bool :=
  schemePart cs (fun r1 => hostPart r1 (fun r2 => portPart r2 (fun r3 => tailPart r3)))

/-- `Crawler._is_valid_url` (noisy.py lines 76-92).  Python's `$` (without
`re.MULTILINE`) also matches just before one trailing newline; since no other
construct of this pattern can consume a newline, that is equivalent to
dropping a single trailing newline up front. -/
def isValidUrl (url : String) : Bool :=
  let cs := url.data
  let cs := if cs.getLast? = some '\n' then cs.dropLast else cs
  urlRegexCore cs

/-! ### Blacklisting and the acceptance filter
(`Crawler._is_blacklisted` lines 94-103, `Crawler._should_accept_url`
lines 105-111). -/

/-- `Crawler._is_blacklisted`: some configured blacklist entry occurs in the
URL as a literal substring (`blacklisted_url in url`). -/
def isBlacklisted (bl : List String) (url : String) : Bool :=
  bl.any (fun b => containsSub url.data b.data)

/-- `Crawler._should_accept_url`: `url and _is_valid_url(url) and not
_is_blacklisted(url)` — an empty string is falsy. -/
def shouldAcceptUrl (bl : List String) (url : String) : Bool :=
  !url.data.isEmpty && isValidUrl url && !isBlacklisted bl url

/-! ### `urllib.parse` (external collaborator)

Modelled from the spec: `Crawler._normalize_link` delegates URL parsing and
relative resolution to CPython's `urllib.parse.urlparse` / `urljoin`, whose
source is not part of this repository.  The definitions below transcribe
CPython 3.10.12 `Lib/urllib/parse.py` (`urlsplit`, `_splitparams`, `urlparse`,
`urlunsplit`, `urlunparse`, `urljoin`) for ASCII inputs.  A `ValueError`
("Invalid IPv6 URL", unbalanced square brackets in the netloc) is `none`. -/

/-- Characters allowed in a scheme after the initial letter
(`urllib.parse.scheme_chars`). -/
def schemeChar (c : Char) : Bool :=
  isAlnumAsc c || decide (c = '+') || decide (c = '-') || decide (c = '.')

/-- Split at the first occurrence of `c`: Python `s.split(c, 1)`, returning
`(s, "")` when `c` does not occur (the second component models the absent
piece defaulting to an empty string, as in `urlsplit`). -/
def splitOnce (l : List Char) (c : Char) : List Char × List Char :=
  let pre := l.takeWhile (fun d => !(d == c))
  if pre.length < l.length then (pre, l.drop (pre.length + 1)) else (l, [])

/-- Python `s.split(c)` on character lists (always at least one component). -/
def splitOnChar (l : List Char) (c : Char) : List (List Char) :=
  l.foldr
    (fun x acc =>
      if x == c then [] :: acc
      else
        match acc with
        | [] => [[x]]
        | h :: t => (x :: h) :: t)
    [[]]

/-- `'/'.join`-style join with a separator character. -/
def joinChar (ls : List (List Char)) (c : Char) : List Char :=
  match ls with
  | [] => []
  | h :: t => h ++ t.foldr (fun x acc => c :: x ++ acc) []

/-- Result of `urlsplit`. -/
structure USplit where
  scheme : List Char
  netloc : List Char
  path : List Char
  query : List Char
  frag : List Char
  deriving DecidableEq, Repr

/-- `urllib.parse.urlsplit` (CPython 3.10.12), ASCII model.  Leading C0
control characters and spaces are stripped, all tabs/CRs/LFs removed; then
scheme, `//netloc`, fragment and query are split off.  Unbalanced square
brackets in the netloc raise `ValueError` (here: `none`). -/
def urlsplitM (url0 : List Char) (defScheme : List Char) : Option USplit :=
  let url1 := (url0.dropWhile (fun c => decide (c.toNat ≤ 32))).filter
    (fun c => !(c == '\t') && !(c == '\r') && !(c == '\n'))
  let pre := url1.takeWhile (fun c => !(c == ':'))
  let headAlpha := match url1 with
    | c :: _ => isAlphaAsc c
    | [] => false
  let hasScheme := !pre.isEmpty && decide (pre.length < url1.length) &&
    headAlpha && pre.all schemeChar
  let scheme := if hasScheme then pre.map toLowerAsc else defScheme
  let rest := if hasScheme then url1.drop (pre.length + 1) else url1
  let hasNetloc := rest.take 2 == ['/', '/']
  let netloc :=
    if hasNetloc then (rest.drop 2).takeWhile (fun c => !(c == '/') && !(c == '?') && !(c == '#'))
    else []
  let rest2 := if hasNetloc then (rest.drop 2).drop netloc.length else rest
  if (netloc.contains '[' && !(netloc.contains ']')) ||
     (netloc.contains ']' && !(netloc.contains '[')) then
    none
  else
    let (rest3, frag) := splitOnce rest2 '#'
    let (path, query) := splitOnce rest3 '?'
    some ⟨scheme, netloc, path, query, frag⟩

/-- Schemes using parameters (`urllib.parse.uses_params`). -/
def usesParams : List (List Char) :=
  ["", "ftp", "hdl", "prospero", "http", "imap", "https", "shttp", "rtsp",
   "rtspu", "sip", "sips", "mms", "sftp", "tel"].map String.data

/-- Schemes allowing relative resolution (`urllib.parse.uses_relative`). -/
def usesRelative : List (List Char) :=
  ["", "ftp", "http", "gopher", "nntp", "imap", "wais", "file", "https",
   "shttp", "mms", "prospero", "rtsp", "rtspu", "sftp", "svn", "svn+ssh",
   "ws", "wss"].map String.data

/-- Schemes with a network location (`urllib.parse.uses_netloc`). -/
def usesNetloc : List (List Char) :=
  ["", "ftp", "http", "gopher", "nntp", "telnet", "imap", "wais", "file",
   "mms", "https", "shttp", "snews", "prospero", "rtsp", "rtspu", "rsync",
   "svn", "svn+ssh", "sftp", "nfs", "git", "git+ssh", "ws", "wss"].map String.data

/-- Index just after the last `'/'` of `l` (0 when there is none): the start
position Python's `_splitparams` hands to `url.find(';', url.rfind('/'))`
(searching from `rfind('/')` or from the character after — the `'/'` itself is
never a `';'`, so searching from the slash position yields the same index). -/
def afterLastSlash (l : List Char) : Nat :=
  l.length - (l.reverse.takeWhile (fun c => !(c == '/'))).length

/-- `urllib.parse._splitparams` on the path component. -/
def splitParamsM (p : List Char) : List Char × List Char :=
  if p.contains '/' then
    let j := afterLastSlash p
    let tl := p.drop j
    let pre := tl.takeWhile (fun c => !(c == ';'))
    if pre.length < tl.length then (p.take j ++ pre, tl.drop (pre.length + 1))
    else (p, [])
  else
    splitOnce p ';'

/-- Result of `urlparse`. -/
structure PRes where
  scheme : List Char
  netloc : List Char
  path : List Char
  params : List Char
  query : List Char
  frag : List Char
  deriving DecidableEq, Repr

/-- `urllib.parse.urlparse` with a default scheme. -/
def urlparseM (s : String) (defScheme : List Char) : Option PRes :=
  match urlsplitM s.data defScheme with
  | none => none
  | some sp =>
    if usesParams.contains sp.scheme && sp.path.contains ';' then
      let pr := splitParamsM sp.path
      some ⟨sp.scheme, sp.netloc, pr.1, pr.2, sp.query, sp.frag⟩
    else
      some ⟨sp.scheme, sp.netloc, sp.path, [], sp.query, sp.frag⟩

/-- `urllib.parse.urlunparse` ∘ `urlunsplit`. -/
def urlunparseM (scheme netloc path params query frag : List Char) : String :=
  let url := if !params.isEmpty then path ++ ';' :: params else path
  let url :=
    if !netloc.isEmpty || url.take 2 == ['/', '/'] then
      let url' := if !url.isEmpty && !(url.take 1 == ['/']) then '/' :: url else url
      '/' :: '/' :: (netloc ++ url')
    else url
  let url := if !scheme.isEmpty then scheme ++ ':' :: url else url
  let url := if !query.isEmpty then url ++ '?' :: query else url
  let url := if !frag.isEmpty then url ++ '#' :: frag else url
  String.mk url

/-- `segments[1:-1] = filter(None, segments[1:-1])` of `urljoin`: drop empty
segments strictly between the first and last. -/
def filterMiddle (l : List (List Char)) : List (List Char) :=
  match l with
  | [] => []
  | [x] => [x]
  | x :: rest =>
    match rest.getLast? with
    | none => [x]
    | some lst => x :: (rest.dropLast.filter (fun s => !s.isEmpty)) ++ [lst]

/-- The `'.'`/`'..'` resolution loop of `urljoin`. -/
def resolveSegs (segs : List (List Char)) : List (List Char) :=
  segs.foldl
    (fun acc seg =>
      if seg == ['.', '.'] then acc.dropLast
      else if seg == ['.'] then acc
      else acc ++ [seg])
    []

/-- A default (all-empty) parse result.  `urljoin`'s internal parses can raise
`ValueError` in Python only for bracket-unbalanced netlocs; the crawler never
reaches `urljoin` with such a link (its own `urlparse(link)` raised first) and
its roots come from the frontier or configuration; the fallback keeps the
function total. -/
def emptyPRes : PRes := ⟨[], [], [], [], [], []⟩

/-- `urllib.parse.urljoin` (CPython 3.10.12). -/
def urljoinM (base url : String) : String :=
  if base.data.isEmpty then url
  else if url.data.isEmpty then base
  else
    let b := (urlparseM base []).getD emptyPRes
    let u := (urlparseM url b.scheme).getD emptyPRes
    if !(u.scheme == b.scheme) || !(usesRelative.contains u.scheme) then url
    else if usesNetloc.contains u.scheme && !u.netloc.isEmpty then
      urlunparseM u.scheme u.netloc u.path u.params u.query u.frag
    else
      let netloc := if usesNetloc.contains u.scheme then b.netloc else u.netloc
      if u.path.isEmpty && u.params.isEmpty then
        let query := if u.query.isEmpty then b.query else u.query
        urlunparseM u.scheme netloc b.path b.params query u.frag
      else
        let baseParts := splitOnChar b.path '/'
        let baseParts :=
          if !(baseParts.getLast? = some []) then baseParts.dropLast else baseParts
        let segments :=
          if u.path.take 1 == ['/'] then splitOnChar u.path '/'
          else filterMiddle (baseParts ++ splitOnChar u.path '/')
        let resolved := resolveSegs segments
        let resolved :=
          if segments.getLast? = some ['.'] ∨ segments.getLast? = some ['.', '.'] then
            resolved ++ [[]]
          else resolved
        let path := joinChar resolved '/'
        let path := if path.isEmpty then ['/'] else path
        urlunparseM u.scheme netloc path u.params u.query u.frag

/-! ### Link normalization (`Crawler._normalize_link`, noisy.py lines 48-74) -/

/-- `Crawler._normalize_link`.  `urlparse(link)` raising `ValueError` is
caught and yields `None` (here `none`); a link that literally starts with
`"//"` keeps the root's scheme; a scheme-less link is resolved against the
root with `urljoin`; otherwise the link is returned unchanged.
`urlparse(root_url)` sits outside the `try` in the source; its `ValueError`
path is unreachable for the crawler's root URLs (frontier entries match the
validity regex, which admits no square brackets), and is modelled by the
total `getD emptyPRes` fallback. -/
def normalizeLink (link rootUrl : String) : Option String :=
  match urlparseM link [] with
  | none => none
  | some pl =>
    let pr := (urlparseM rootUrl []).getD emptyPRes
    if link.data.take 2 == ['/', '/'] then
      some (String.mk (pr.scheme ++ "://".data ++ pl.netloc ++ pl.path))
    else if pl.scheme.isEmpty then
      some (urljoinM rootUrl link)
    else
      some link

/-! ### Link extraction (`Crawler._extract_urls`, noisy.py lines 113-133)

`re.findall(r"href=[\"'](?!#)(.*?)[\"'].*?", body)`: non-overlapping
left-to-right matches; the captured group is the shortest run of
non-newline characters up to the next quote (single or double, not
necessarily matching the opening one), rejected when it starts with `#`.
The trailing lazy `.*?` always matches the empty string. -/

/-- Try to match `href=["'](?!#)(.*?)["']` at the head of `cs`; on success
return the captured group and the remainder after the closing quote. -/
def tryHref (cs : List Char) : Option (List Char × List Char) :=
  match cs with
  | 'h' :: 'r' :: 'e' :: 'f' :: '=' :: q :: rest =>
    if (q == '"' || q == '\'') && !(rest.head? = some '#') then
      let body := rest.takeWhile (fun c => !(c == '"') && !(c == '\''))
      if body.contains '\n' then none
      else
        match rest.drop body.length with
        | _ :: after => some (body, after)
        | [] => none
    else none
  | _ => none

/-- Left-to-right non-overlapping scan; fuel is the input length (the scan
advances at least one character per step). -/
def findHrefsAux : Nat → List Char → List String
  | 0, _ => []
  | fuel + 1, cs =>
    match cs with
    | [] => []
    | _ :: t =>
      match tryHref cs with
      | some (url, after) => String.mk url :: findHrefsAux fuel after
      | none => findHrefsAux fuel t

/-- All `href` attribute values of a body, in order (`re.findall`). -/
def findHrefs (body : String) : List String :=
  findHrefsAux body.data.length body.data

/-- `Crawler._extract_urls`: extract, normalize against the page's URL, keep
the accepted ones.  (`None` results of normalization are falsy and dropped by
`_should_accept_url`.)  The blacklist is the crawler's current
`config["blacklisted_urls"]`. -/
def extractUrls (body rootUrl : String) (bl : List String) : List String :=
  (((findHrefs body).map (fun u => normalizeLink u rootUrl)).filterMap id).filter
    (fun u => shouldAcceptUrl bl u)

/-! ### The fetch step (`Crawler._request`, noisy.py lines 32-46)

The network is an oracle.  The `try` block of `_request` covers only
`ses.get(url, ...)` and `resp.raise_for_status()`; any exception there is
caught and turned into the empty string.  `await resp.text()` happens on
line 46, *outside* the `try` (and after the client session context has been
exited), so an exception raised while reading the body propagates to the
caller.  Exception classes are collapsed to the four the crawler
distinguishes. -/

/-- The exception classes distinguished by the crawler's handlers
(`aiohttp.ClientError`, `MemoryError`, `urllib3.exceptions.LocationParseError`
— `CrawlerTimedOut` is a separate result constructor, and every other
exception is `other`). -/
inductive PyExc where
  | clientError
  | memoryError
  | locationParseError
  | other
  deriving DecidableEq, Repr

/-- Oracle outcome of one HTTP GET:
* `connFail` — `ses.get` raised (connection/transport failure);
* `httpError` — `resp.raise_for_status()` raised (non-2xx status);
* `ok body` — the body was read successfully;
* `bodyRaises e` — `await resp.text()` raised `e`. -/
inductive ReqOutcome where
  | connFail
  | httpError
  | ok (body : String)
  | bodyRaises (e : PyExc)
  deriving DecidableEq, Repr

/-- `Crawler._request` as a function of the oracle outcome: `Except.error e`
models the call raising `e`; `Except.ok s` models it returning `s`. -/
def request : ReqOutcome → Except PyExc String
  | ReqOutcome.connFail => Except.ok ""
  | ReqOutcome.httpError => Except.ok ""
  | ReqOutcome.ok body => Except.ok body
  | ReqOutcome.bodyRaises e => Except.error e

/-! ### The random walk (`Crawler._browse_from_links`, noisy.py lines 144-183)

State: the frontier `_links` and the blacklist `config["blacklisted_urls"]`.
Per-hop oracle: the random choice, the fetch outcome, and the wall clock at
the hop's start.  `max_depth` is a natural number (the configured value; a
non-positive configured value behaves like 0: immediate dead end).
`random.randrange(min_sleep, max_sleep)` on line 167 raises `ValueError`
inside the walk's `try` when `max_sleep <= min_sleep`; the walk's handler
only catches `aiohttp.ClientError`, so that `ValueError` escapes the walk
(modelled as a raised `other`). -/

/-- Crawler configuration (`self._config`), restricted to the fields the
modelled control flow reads. -/
structure Config where
  rootUrls : List String
  maxDepth : Nat
  timeout : Option Int
  minSleep : Int
  maxSleep : Int
  deriving Repr

/-- `Crawler._is_timeout_reached` (noisy.py lines 204-215):
`timeout := config.get('timeout')` is falsy when absent or `0`, in which case
the deadline is never computed and the falsy `timeout and is_timed_out` is
returned; otherwise the result is `now >= start + timedelta(seconds=t)`. -/
def isTimeoutReached (timeout : Option Int) (start now : Int) : Bool :=
  match timeout with
  | none => false
  | some t => if t = 0 then false else decide (start + t ≤ now)

/-- Per-hop oracle: random index, fetch outcome, clock reading. -/
structure HopEnv where
  idx : Nat
  fetch : ReqOutcome
  now : Int

/-- Walk state: the frontier `self._links` and the blacklist
`self._config["blacklisted_urls"]`. -/
structure WalkState where
  links : List String
  blacklist : List String
  deriving DecidableEq, Repr

/-- `random.choice(self._links)`: an arbitrary valid index, supplied by the
oracle and reduced modulo the (positive) frontier length. -/
def chooseLink (st : WalkState) (i : Nat) : String :=
  st.links.getD (i % st.links.length) ""

/-- `Crawler._remove_and_blacklist` (noisy.py lines 135-142): append the link
to the blacklist, remove the *first* occurrence equal to it from the frontier
(`links.pop(links.index(link))`). -/
def removeAndBlacklist (st : WalkState) (link : String) : WalkState :=
  ⟨st.links.erase link, st.blacklist ++ [link]⟩

/-- Outcome of one recursion level of `_browse_from_links` before the
recursive call. -/
inductive StepOut where
  | dead
  | timed
  | raised (e : PyExc)
  | cont (st' : WalkState)
  deriving DecidableEq, Repr

/-- The `try`/`except` body of one `_browse_from_links` hop, as a function of
the fetch's result (noisy.py lines 162-181): a raised `aiohttp.ClientError`
(the only class the walk's `except` catches) → remove-and-blacklist; any
other exception escapes; on a returned body: extract, sleep (`ValueError`
when `max_sleep <= min_sleep` escapes), then replace the frontier when more
than one link was accepted, else remove-and-blacklist the visited link.
The source calls `_extract_urls` twice on the replacement branch (lines 164
and 172); nothing changes between the calls, so both return the same list. -/
def browseHandle (cfg : Config) (st : WalkState) (link : String) :
    Except PyExc String → StepOut
  | Except.error PyExc.clientError => StepOut.cont (removeAndBlacklist st link)
  | Except.error e => StepOut.raised e
  | Except.ok body =>
    let subs := extractUrls body link st.blacklist
    if cfg.maxSleep ≤ cfg.minSleep then StepOut.raised PyExc.other
    else if 1 < subs.length then StepOut.cont ⟨subs, st.blacklist⟩
    else StepOut.cont (removeAndBlacklist st link)

/-- One step of `_browse_from_links` at depth `depth`:
1. empty frontier or `depth >= max_depth` → return (dead end);
2. `_is_timeout_reached()` → `raise CrawlerTimedOut`;
3. otherwise pick a random frontier link, fetch it, and handle the result. -/
def browseStep (cfg : Config) (env : Nat → HopEnv) (start : Int)
    (st : WalkState) (depth : Nat) : StepOut :=
  if st.links.length = 0 ∨ cfg.maxDepth ≤ depth then StepOut.dead
  else if isTimeoutReached cfg.timeout start (env depth).now then StepOut.timed
  else browseHandle cfg st (chooseLink st (env depth).idx) (request (env depth).fetch)

/-- How a walk ends: normal return (dead end / depth budget), the
`CrawlerTimedOut` exception, or another escaping exception. -/
inductive WalkResult where
  | deadEnd
  | timedOut
  | raised (e : PyExc)
  deriving DecidableEq, Repr

/-- A finished walk: its result, final state, and the list of depth values at
which a hop (a fetch of a frontier link) was executed. -/
structure WalkRun where
  result : WalkResult
  final : WalkState
  hopDepths : List Nat
  deriving DecidableEq, Repr

/-- The recursion of `_browse_from_links`, fuelled.  The recursion only
continues while `depth < max_depth`, so with fuel `max_depth - depth` the
fuel-exhaustion case coincides exactly with the dead-end guard
`depth >= max_depth`; `browseFromLinks` below always supplies that fuel. -/
def browseGas (cfg : Config) (env : Nat → HopEnv) (start : Int) :
    Nat → WalkState → Nat → WalkRun
  | 0, st, _ => ⟨WalkResult.deadEnd, st, []⟩
  | gas + 1, st, depth =>
    match browseStep cfg env start st depth with
    | StepOut.dead => ⟨WalkResult.deadEnd, st, []⟩
    | StepOut.timed => ⟨WalkResult.timedOut, st, []⟩
    | StepOut.raised e => ⟨WalkResult.raised e, st, [depth]⟩
    | StepOut.cont st' =>
      let w := browseGas cfg env start gas st' (depth + 1)
      ⟨w.result, w.final, depth :: w.hopDepths⟩

/-- `Crawler._browse_from_links` started at `depth`. -/
def browseFromLinks (cfg : Config) (env : Nat → HopEnv) (start : Int)
    (st : WalkState) (depth : Nat) : WalkRun :=
  browseGas cfg env start (cfg.maxDepth - depth) st depth

/-! ### The session loop (`Crawler.crawl`, noisy.py lines 217-243)

Each iteration picks a root, fetches it, builds the frontier and runs a walk
from depth 0.  The `try` around the iteration body catches exactly
`aiohttp.ClientError`, `MemoryError` and `LocationParseError` (log and
continue) and `CrawlerTimedOut` (return).  There is no catch-all handler:
any other exception escapes `crawl` and crashes the run. -/

/-- Per-iteration oracle: random root index, outcome of the root fetch, and
the per-hop oracle of the iteration's walk. -/
structure IterEnv where
  rootIdx : Nat
  rootFetch : ReqOutcome
  hops : Nat → HopEnv

/-- `random.choice(self._config["root_urls"])` for a nonempty root list. -/
def rootChoice (cfg : Config) (i : Nat) : String :=
  cfg.rootUrls.getD (i % cfg.rootUrls.length) ""

/-- Outcome of one iteration of the `while True` loop: continue with a new
blacklist, the `CrawlerTimedOut` signal, or an exception `e` reaching the
iteration's `except` clauses.  The blacklist carried out includes every
mutation made before the exception was raised. -/
inductive IterOut where
  | next (bl : List String)
  | ended (bl : List String)
  | exc (e : PyExc) (bl : List String)
  deriving DecidableEq, Repr

/-- One iteration of `Crawler.crawl`'s loop body (inside the `try`):
`random.choice` on an empty root list raises `IndexError` (an uncaught
`other`); then the root fetch, frontier construction and walk from depth 0. -/
def crawlIter (cfg : Config) (start : Int) (it : IterEnv) (bl : List String) :
    IterOut :=
  if cfg.rootUrls.length = 0 then IterOut.exc PyExc.other bl
  else
    let url := rootChoice cfg it.rootIdx
    match request it.rootFetch with
    | Except.error e => IterOut.exc e bl
    | Except.ok body =>
      let w := browseFromLinks cfg it.hops start ⟨extractUrls body url bl, bl⟩ 0
      match w.result with
      | WalkResult.deadEnd => IterOut.next w.final.blacklist
      | WalkResult.timedOut => IterOut.ended w.final.blacklist
      | WalkResult.raised e => IterOut.exc e w.final.blacklist

/-- The blacklist carried by an iteration outcome. -/
def iterBl : IterOut → List String
  | IterOut.next bl => bl
  | IterOut.ended bl => bl
  | IterOut.exc _ bl => bl

/-- How a (fuel-bounded prefix of the) session ends: graceful return on
`CrawlerTimedOut`, a crash on an uncaught exception, or still running when
the observation fuel is exhausted. -/
inductive CrawlResult where
  | finished (bl : List String)
  | crashed (e : PyExc) (bl : List String)
  | running (bl : List String)
  deriving DecidableEq, Repr

/-- The blacklist carried by a session outcome. -/
def crawlBl : CrawlResult → List String
  | CrawlResult.finished bl => bl
  | CrawlResult.crashed _ bl => bl
  | CrawlResult.running bl => bl

/-- `Crawler.crawl`'s `while True` loop observed for `fuel` iterations,
starting at iteration `i` with blacklist `bl`.  `ClientError`, `MemoryError`
and `LocationParseError` are caught (log and continue); `CrawlerTimedOut`
returns; everything else escapes the loop. -/
def crawl (cfg : Config) (env : Nat → IterEnv) (start : Int) :
    Nat → Nat → List String → CrawlResult
  | _, 0, bl => CrawlResult.running bl
  | i, fuel + 1, bl =>
    match crawlIter cfg start (env i) bl with
    | IterOut.next bl' => crawl cfg env start (i + 1) fuel bl'
    | IterOut.ended bl' => CrawlResult.finished bl'
    | IterOut.exc PyExc.clientError bl' => crawl cfg env start (i + 1) fuel bl'
    | IterOut.exc PyExc.memoryError bl' => crawl cfg env start (i + 1) fuel bl'
    | IterOut.exc PyExc.locationParseError bl' => crawl cfg env start (i + 1) fuel bl'
    | IterOut.exc PyExc.other bl' => CrawlResult.crashed PyExc.other bl'

/-! ### The claimed URL grammar (spec-side, for refinement comparison)

The definitions below follow the *specification's words* for the acceptance
grammar (spec.md §4.2 / claim C5), not the code, so that the claim "the code
accepts exactly this grammar" can be compared against `isValidUrl`:
scheme `http`, `https`, `ftp` or `ftps`; then either a domain of **one or
more** dot-separated labels of 1-63 alphanumeric/hyphen characters whose
final label is **alphabetic of length ≥ 2**, or a dotted-quad IPv4 address;
an optional port; an optional path/query; case-insensitively. -/

/-- Spec-side: strip one of the four claimed schemes (case-insensitive). -/
def specScheme (cs : List Char) : Option (List Char) :=
  if (cs.take 7).map toLowerAsc = "http://".data then some (cs.drop 7)
  else if (cs.take 8).map toLowerAsc = "https://".data then some (cs.drop 8)
  else if (cs.take 6).map toLowerAsc = "ftp://".data then some (cs.drop 6)
  else if (cs.take 7).map toLowerAsc = "ftps://".data then some (cs.drop 7)
  else none

/-- Spec-side domain: one or more dot-separated labels, each 1-63
alphanumeric/hyphen characters, the final label alphabetic of length ≥ 2. -/
def specDomain (h : List Char) : Bool :=
  let ls := splitOnChar h '.'
  ls.all (fun l => decide (1 ≤ l.length) && decide (l.length ≤ 63) && l.all isAlnumHy) &&
    (match ls.getLast? with
     | some l => decide (2 ≤ l.length) && l.all isAlphaAsc
     | none => false)

/-- Spec-side dotted-quad IPv4: four dot-separated all-digit groups (1-3
digits each, the regex-level reading the spec itself points at). -/
def specIPv4 (h : List Char) : Bool :=
  let gs := splitOnChar h '.'
  decide (gs.length = 4) &&
    gs.all (fun g => decide (1 ≤ g.length) && decide (g.length ≤ 3) && g.all isDigitAsc)

/-- The acceptance grammar exactly as the claim words it. -/
def specValidUrl (url : String) : Bool :=
  match specScheme url.data with
  | none => false
  | some rest =>
    let hostport := rest.takeWhile (fun c => !(c == '/') && !(c == '?'))
    let host := (splitOnce hostport ':').1
    let port := (splitOnce hostport ':').2
    (if hostport.contains ':' then !port.isEmpty && port.all isDigitAsc else true) &&
      (specIPv4 host || specDomain host)

/-! ### Concrete fixtures (used by witnesses and counterexamples) -/

/-- A configuration without a session timeout. -/
def fxCfg : Config := ⟨["http://r.io"], 10, none, 3, 6⟩

/-- A configuration with a 1-second session timeout. -/
def fxCfgT : Config := ⟨["http://r.io"], 5, some 1, 3, 6⟩

/-- A configuration whose `timeout` option is the integer `0`. -/
def fxCfgZ : Config := ⟨["http://r.io"], 5, some 0, 3, 6⟩

/-- Hops that fetch an empty body at clock 0. -/
def fxEnvEmpty : Nat → HopEnv := fun _ => ⟨0, ReqOutcome.ok "", 0⟩

/-- Hops that fetch an empty body at clock 100 (past any small deadline). -/
def fxEnvLate : Nat → HopEnv := fun _ => ⟨0, ReqOutcome.ok "", 100⟩

/-- Hops whose body read raises `MemoryError`. -/
def fxEnvMem : Nat → HopEnv := fun _ => ⟨0, ReqOutcome.bodyRaises PyExc.memoryError, 0⟩

/-- A page body with two acceptable links. -/
def fxBody2 : String := "href='http://x1.com' href='http://x2.com'"

/-- A page body with one acceptable link. -/
def fxBody1 : String := "href='http://x1.com'"

/-- An iteration whose root fetch body-read raises an unclassified exception. -/
def fxIterOther : Nat → IterEnv :=
  fun _ => ⟨0, ReqOutcome.bodyRaises PyExc.other, fxEnvEmpty⟩

/-- An iteration whose root fetch body-read raises `aiohttp.ClientError`. -/
def fxIterClient : Nat → IterEnv :=
  fun _ => ⟨0, ReqOutcome.bodyRaises PyExc.clientError, fxEnvEmpty⟩

/-- An iteration whose walk times out at its first hop. -/
def fxIterTimed : Nat → IterEnv :=
  fun _ => ⟨0, ReqOutcome.ok fxBody1, fxEnvLate⟩

/-! ## Helper lemmas -/

lemma isPrefixOf_self (l : List Char) : l.isPrefixOf l = true := by
  induction l with
  | nil => rfl
  | cons c t ih => simp [List.isPrefixOf, ih]

lemma containsSub_self (l : List Char) : containsSub l l = true := by
  cases l with
  | nil => rfl
  | cons c t => simp [containsSub, isPrefixOf_self]

lemma isBlacklisted_of_mem {bl : List String} {url b : String} (hb : b ∈ bl)
    (hc : containsSub url.data b.data = true) : isBlacklisted bl url = true := by
  simp only [isBlacklisted, List.any_eq_true]
  exact ⟨b, hb, hc⟩

lemma shouldAccept_of_blacklisted {bl : List String} {url b : String}
    (hb : b ∈ bl) (hc : containsSub url.data b.data = true) :
    shouldAcceptUrl bl url = false := by
  simp [shouldAcceptUrl, isBlacklisted_of_mem hb hc]

lemma extractUrls_not_blacklisted {body root : String} {bl : List String}
    {url : String} (h : url ∈ extractUrls body root bl) :
    ∀ b ∈ bl, containsSub url.data b.data = false := by
  intro b hb
  have hacc : shouldAcceptUrl bl url = true := (List.mem_filter.mp h).2
  by_contra hcon
  have hc : containsSub url.data b.data = true := by
    revert hcon
    cases containsSub url.data b.data <;> simp
  rw [shouldAccept_of_blacklisted hb hc] at hacc
  exact Bool.false_ne_true hacc

lemma chooseLink_mem {st : WalkState} (h : st.links.length ≠ 0) (i : Nat) :
    chooseLink st i ∈ st.links := by
  have hlt : i % st.links.length < st.links.length :=
    Nat.mod_lt _ (Nat.pos_of_ne_zero h)
  simp only [chooseLink, List.getD_eq_getElem?_getD, List.getElem?_eq_getElem hlt,
    Option.getD_some]
  exact List.getElem_mem hlt

lemma removeAndBlacklist_links_length {st : WalkState} {link : String}
    (h : link ∈ st.links) :
    (removeAndBlacklist st link).links.length + 1 = st.links.length := by
  have := List.length_erase_of_mem h
  have hpos : 0 < st.links.length := List.length_pos.mpr (List.ne_nil_of_mem h)
  simp only [removeAndBlacklist, this]
  omega

/-- Inversion of the hop handler: a continuation's blacklist either stays or
grows by the visited link. -/
lemma browseHandle_cont_blacklist {cfg : Config} {st : WalkState} {link : String}
    {r : Except PyExc String} {st' : WalkState}
    (h : browseHandle cfg st link r = StepOut.cont st') :
    ∃ u, st'.blacklist = st.blacklist ++ u := by
  rcases r with e | body
  · cases e with
    | clientError =>
      exact ⟨[link], by cases h; simp [removeAndBlacklist]⟩
    | memoryError => exact absurd h (by simp [browseHandle])
    | locationParseError => exact absurd h (by simp [browseHandle])
    | other => exact absurd h (by simp [browseHandle])
  · simp only [browseHandle] at h
    split at h
    · exact absurd h (by simp)
    · split at h
      · exact ⟨[], by cases h; simp⟩
      · exact ⟨[link], by cases h; simp [removeAndBlacklist]⟩

/-- Inversion of a continuing step: the blacklist either stays or grows. -/
lemma browseStep_cont_blacklist {cfg : Config} {env : Nat → HopEnv} {start : Int}
    {st : WalkState} {depth : Nat} {st' : WalkState}
    (h : browseStep cfg env start st depth = StepOut.cont st') :
    ∃ u, st'.blacklist = st.blacklist ++ u := by
  unfold browseStep at h
  split at h
  · exact absurd h (by simp)
  · split at h
    · exact absurd h (by simp)
    · exact browseHandle_cont_blacklist h

/-- A continuing step only happens strictly below the depth budget and with a
nonempty frontier. -/
lemma browseStep_cont_guards {cfg : Config} {env : Nat → HopEnv} {start : Int}
    {st : WalkState} {depth : Nat} {st' : WalkState}
    (h : browseStep cfg env start st depth = StepOut.cont st') :
    st.links.length ≠ 0 ∧ depth < cfg.maxDepth := by
  unfold browseStep at h
  split at h
  · exact absurd h (by simp)
  · next hg => exact ⟨fun h0 => hg (Or.inl h0), by omega⟩

/-- The walk's final blacklist extends the initial one. -/
lemma browseGas_blacklist_acc (cfg : Config) (env : Nat → HopEnv) (start : Int) :
    ∀ gas st depth, ∃ u,
      (browseGas cfg env start gas st depth).final.blacklist = st.blacklist ++ u := by
  intro gas
  induction gas with
  | zero => exact fun st depth => ⟨[], by simp [browseGas]⟩
  | succ g ih =>
    intro st depth
    rcases hstep : browseStep cfg env start st depth with _ | _ | e | st'
    · exact ⟨[], by simp [browseGas, hstep]⟩
    · exact ⟨[], by simp [browseGas, hstep]⟩
    · exact ⟨[], by simp [browseGas, hstep]⟩
    · obtain ⟨u1, hu1⟩ := browseStep_cont_blacklist hstep
      obtain ⟨u2, hu2⟩ := ih st' (depth + 1)
      exact ⟨u1 ++ u2, by simp [browseGas, hstep, hu2, hu1]⟩

/-- The executed hop depths form the contiguous range starting at the initial
depth, and there are at most `gas` of them. -/
lemma browseGas_depths (cfg : Config) (env : Nat → HopEnv) (start : Int) :
    ∀ gas st depth,
      (browseGas cfg env start gas st depth).hopDepths =
        List.range' depth (browseGas cfg env start gas st depth).hopDepths.length ∧
      (browseGas cfg env start gas st depth).hopDepths.length ≤ gas := by
  intro gas
  induction gas with
  | zero => exact fun st depth => ⟨by simp [browseGas], by simp [browseGas]⟩
  | succ g ih =>
    intro st depth
    rcases hstep : browseStep cfg env start st depth with _ | _ | e | st'
    · exact ⟨by simp [browseGas, hstep], by simp [browseGas, hstep]⟩
    · exact ⟨by simp [browseGas, hstep], by simp [browseGas, hstep]⟩
    · refine ⟨?_, by simp [browseGas, hstep]⟩
      simp only [browseGas, hstep]
      rfl
    · obtain ⟨h1, h2⟩ := ih st' (depth + 1)
      constructor
      · simp only [browseGas, hstep, List.length_cons]
        rw [List.range'_succ]
        exact congrArg (depth :: ·) h1
      · simp only [browseGas, hstep, List.length_cons]
        omega

/-- With a falsy timeout option (absent or `0`) no step ever times out. -/
lemma isTimeoutReached_falsy {timeout : Option Int}
    (h : timeout = none ∨ timeout = some 0) (start now : Int) :
    isTimeoutReached timeout start now = false := by
  rcases h with h | h <;> simp [isTimeoutReached, h]

/-- The hop handler never yields the timeout transition. -/
lemma browseHandle_ne_timed (cfg : Config) (st : WalkState) (link : String)
    (r : Except PyExc String) : browseHandle cfg st link r ≠ StepOut.timed := by
  rcases r with e | body
  · cases e <;> simp [browseHandle]
  · simp only [browseHandle]
    split
    · simp
    · split <;> simp

lemma browseStep_ne_timed {cfg : Config} {env : Nat → HopEnv} {start : Int}
    (h : cfg.timeout = none ∨ cfg.timeout = some 0)
    (st : WalkState) (depth : Nat) :
    browseStep cfg env start st depth ≠ StepOut.timed := by
  unfold browseStep
  split
  · simp
  · rw [isTimeoutReached_falsy h]
    simp only [Bool.false_eq_true, if_false]
    exact browseHandle_ne_timed _ _ _ _

/-- With a falsy timeout option the walk never ends in `timedOut`. -/
lemma browseGas_no_timeout {cfg : Config} {env : Nat → HopEnv} {start : Int}
    (h : cfg.timeout = none ∨ cfg.timeout = some 0) :
    ∀ gas st depth,
      (browseGas cfg env start gas st depth).result ≠ WalkResult.timedOut := by
  intro gas
  induction gas with
  | zero => intro st depth; simp [browseGas]
  | succ g ih =>
    intro st depth
    rcases hstep : browseStep cfg env start st depth with _ | _ | e | st'
    · simp [browseGas, hstep]
    · exact absurd hstep (browseStep_ne_timed h st depth)
    · simp [browseGas, hstep]
    · simpa [browseGas, hstep] using ih st' (depth + 1)

lemma browse_no_timeout {cfg : Config} {env : Nat → HopEnv} {start : Int}
    (h : cfg.timeout = none ∨ cfg.timeout = some 0) (st : WalkState) (depth : Nat) :
    (browseFromLinks cfg env start st depth).result ≠ WalkResult.timedOut :=
  browseGas_no_timeout h _ st depth

/-- When every fetch either yields a body whose accepted sub-frontier has at
most one entry or raises a `ClientError`, the handler always takes the
remove-and-blacklist branch. -/
lemma browseHandle_single {cfg : Config} {st : WalkState} {link : String}
    {r : Except PyExc String}
    (hS : cfg.minSleep < cfg.maxSleep)
    (hE : ∀ e, r = Except.error e → e = PyExc.clientError)
    (h1 : ∀ body, r = Except.ok body →
      (extractUrls body link st.blacklist).length ≤ 1) :
    browseHandle cfg st link r = StepOut.cont (removeAndBlacklist st link) := by
  rcases r with e | body
  · have he := hE e rfl
    subst he
    simp [browseHandle]
  · have hlen := h1 body rfl
    simp only [browseHandle]
    rw [if_neg (by omega), if_neg (by omega)]

/-- A step with open guards under the same hypotheses. -/
lemma browseStep_single {cfg : Config} {env : Nat → HopEnv} {start : Int}
    {st : WalkState} {depth : Nat}
    (hS : cfg.minSleep < cfg.maxSleep)
    (hT : isTimeoutReached cfg.timeout start (env depth).now = false)
    (hE : ∀ e, request (env depth).fetch = Except.error e → e = PyExc.clientError)
    (h1 : ∀ body, request (env depth).fetch = Except.ok body →
      (extractUrls body (chooseLink st (env depth).idx) st.blacklist).length ≤ 1)
    (hne : st.links.length ≠ 0) (hd : depth < cfg.maxDepth) :
    browseStep cfg env start st depth =
      StepOut.cont (removeAndBlacklist st (chooseLink st (env depth).idx)) := by
  unfold browseStep
  rw [if_neg (not_or.mpr ⟨hne, by omega⟩), hT]
  simp only [Bool.false_eq_true, if_false]
  exact browseHandle_single hS hE h1

/-- The main walk invariant for dead-end-only environments: the walk removes
and blacklists exactly one frontier entry per hop and ends in a dead end. -/
lemma browseGas_single (cfg : Config) (env : Nat → HopEnv) (start : Int)
    (hS : cfg.minSleep < cfg.maxSleep)
    (hT : ∀ d, isTimeoutReached cfg.timeout start (env d).now = false)
    (hE : ∀ d e, request (env d).fetch = Except.error e → e = PyExc.clientError)
    (h1 : ∀ d body, request (env d).fetch = Except.ok body →
      ∀ l bl, (extractUrls body l bl).length ≤ 1) :
    ∀ gas st depth, ∃ vs : List String,
      (browseGas cfg env start gas st depth).result = WalkResult.deadEnd ∧
      (browseGas cfg env start gas st depth).final.blacklist = st.blacklist ++ vs ∧
      (browseGas cfg env start gas st depth).final.links =
        vs.foldl (fun l v => l.erase v) st.links ∧
      vs.length = (browseGas cfg env start gas st depth).hopDepths.length ∧
      st.links.length =
        (browseGas cfg env start gas st depth).final.links.length + vs.length := by
  intro gas
  induction gas with
  | zero => exact fun st depth => ⟨[], by simp [browseGas]⟩
  | succ g ih =>
    intro st depth
    by_cases hc : st.links.length = 0 ∨ cfg.maxDepth ≤ depth
    · have hstep : browseStep cfg env start st depth = StepOut.dead := by
        unfold browseStep
        rw [if_pos hc]
      exact ⟨[], by simp [browseGas, hstep]⟩
    · have hne : st.links.length ≠ 0 := fun h0 => hc (Or.inl h0)
      have hd : depth < cfg.maxDepth := by
        rcases Nat.lt_or_ge depth cfg.maxDepth with h | h
        · exact h
        · exact absurd (Or.inr h) hc
      set link := chooseLink st (env depth).idx with hlink
      have hstep : browseStep cfg env start st depth =
          StepOut.cont (removeAndBlacklist st link) :=
        browseStep_single hS (hT depth) (hE depth)
          (fun body hb => h1 depth body hb _ _) hne hd
      obtain ⟨vs', hres, hbl, hlks, hlen, hcount⟩ :=
        ih (removeAndBlacklist st link) (depth + 1)
      have hmem : link ∈ st.links := chooseLink_mem hne _
      have herase := removeAndBlacklist_links_length hmem
      refine ⟨link :: vs', ?_, ?_, ?_, ?_, ?_⟩
      · simpa [browseGas, hstep] using hres
      · simp only [browseGas, hstep]
        rw [hbl]
        simp [removeAndBlacklist]
      · simp only [browseGas, hstep]
        rw [hlks]
        rfl
      · simp only [browseGas, hstep, List.length_cons]
        rw [hlen]
      · simp only [browseGas, hstep, List.length_cons]
        omega

/-- The walk's final blacklist extends its initial one. -/
lemma browse_blacklist_acc (cfg : Config) (env : Nat → HopEnv) (start : Int)
    (st : WalkState) (depth : Nat) :
    ∃ u, (browseFromLinks cfg env start st depth).final.blacklist =
      st.blacklist ++ u :=
  browseGas_blacklist_acc cfg env start _ st depth

/-- An iteration's outgoing blacklist extends the incoming one. -/
lemma crawlIter_blacklist (cfg : Config) (start : Int) (it : IterEnv)
    (bl : List String) : ∃ u, iterBl (crawlIter cfg start it bl) = bl ++ u := by
  unfold crawlIter
  split
  · exact ⟨[], by simp [iterBl]⟩
  · rcases hreq : request it.rootFetch with e | body
    · simp only [hreq]
      exact ⟨[], by simp [iterBl]⟩
    · simp only [hreq]
      obtain ⟨u, hu⟩ := browse_blacklist_acc cfg it.hops start
        ⟨extractUrls body (rootChoice cfg it.rootIdx) bl, bl⟩ 0
      refine ⟨u, ?_⟩
      rcases hw : (browseFromLinks cfg it.hops start
          ⟨extractUrls body (rootChoice cfg it.rootIdx) bl, bl⟩ 0).result with _ | _ | e <;>
        simpa [hw, iterBl] using hu

/-- The session loop's blacklist extends the incoming one, whatever the
outcome. -/
lemma crawl_blacklist_acc (cfg : Config) (env : Nat → IterEnv) (start : Int) :
    ∀ fuel i bl, ∃ u, crawlBl (crawl cfg env start i fuel bl) = bl ++ u := by
  intro fuel
  induction fuel with
  | zero => exact fun i bl => ⟨[], by simp [crawl, crawlBl]⟩
  | succ f ih =>
    intro i bl
    obtain ⟨u, hu⟩ := crawlIter_blacklist cfg start (env i) bl
    rcases hit : crawlIter cfg start (env i) bl with bl' | bl' | ⟨e, bl'⟩
    · rw [hit] at hu
      simp only [iterBl] at hu
      subst hu
      obtain ⟨u2, hu2⟩ := ih (i + 1) (bl ++ u)
      refine ⟨u ++ u2, ?_⟩
      simp only [crawl, hit]
      rw [hu2, List.append_assoc]
    · rw [hit] at hu
      simp only [iterBl] at hu
      exact ⟨u, by simp [crawl, hit, crawlBl, hu]⟩
    · rw [hit] at hu
      simp only [iterBl] at hu
      subst hu
      cases e with
      | clientError =>
        obtain ⟨u2, hu2⟩ := ih (i + 1) (bl ++ u)
        refine ⟨u ++ u2, ?_⟩
        simp only [crawl, hit]
        rw [hu2, List.append_assoc]
      | memoryError =>
        obtain ⟨u2, hu2⟩ := ih (i + 1) (bl ++ u)
        refine ⟨u ++ u2, ?_⟩
        simp only [crawl, hit]
        rw [hu2, List.append_assoc]
      | locationParseError =>
        obtain ⟨u2, hu2⟩ := ih (i + 1) (bl ++ u)
        refine ⟨u ++ u2, ?_⟩
        simp only [crawl, hit]
        rw [hu2, List.append_assoc]
      | other =>
        exact ⟨u, by simp [crawl, hit, crawlBl]⟩

/-- With a falsy timeout option no iteration ever reports the timeout
signal. -/
lemma crawlIter_not_ended {cfg : Config} (h : cfg.timeout = none ∨ cfg.timeout = some 0)
    (start : Int) (it : IterEnv) (bl : List String) :
    ∀ bl', crawlIter cfg start it bl ≠ IterOut.ended bl' := by
  intro bl'
  unfold crawlIter
  split
  · simp
  · rcases hreq : request it.rootFetch with e | body
    · simp
    · rcases hw : (browseFromLinks cfg it.hops start
          ⟨extractUrls body (rootChoice cfg it.rootIdx) bl, bl⟩ 0).result with _ | _ | e
      · simp [hw]
      · exact absurd hw (browse_no_timeout h _ 0)
      · simp [hw]

/-- With a falsy timeout option the session loop never finishes gracefully
(it runs unbounded, short of a crash). -/
lemma crawl_not_finished {cfg : Config} {env : Nat → IterEnv} {start : Int}
    (h : cfg.timeout = none ∨ cfg.timeout = some 0) :
    ∀ fuel i bl bl', crawl cfg env start i fuel bl ≠ CrawlResult.finished bl' := by
  intro fuel
  induction fuel with
  | zero => intro i bl bl'; simp [crawl]
  | succ f ih =>
    intro i bl bl'
    rcases hit : crawlIter cfg start (env i) bl with bl2 | bl2 | ⟨e, bl2⟩
    · simpa [crawl, hit] using ih (i + 1) bl2 bl'
    · exact absurd hit (crawlIter_not_ended h start (env i) bl bl2)
    · cases e with
      | clientError => simpa [crawl, hit] using ih (i + 1) bl2 bl'
      | memoryError => simpa [crawl, hit] using ih (i + 1) bl2 bl'
      | locationParseError => simpa [crawl, hit] using ih (i + 1) bl2 bl'
      | other => simp [crawl, hit]

/-- A hop whose deadline has passed (configured, truthy timeout) times out. -/
lemma browseStep_timed {cfg : Config} {env : Nat → HopEnv} {start : Int}
    {st : WalkState} {depth : Nat} {t : Int}
    (htm : cfg.timeout = some t) (ht0 : t ≠ 0)
    (hclock : start + t ≤ (env depth).now)
    (hne : st.links.length ≠ 0) (hd : depth < cfg.maxDepth) :
    browseStep cfg env start st depth = StepOut.timed := by
  unfold browseStep
  rw [if_neg (not_or.mpr ⟨hne, by omega⟩)]
  have ht : isTimeoutReached cfg.timeout start (env depth).now = true := by
    simp [isTimeoutReached, htm, ht0, hclock]
  rw [ht]
  simp

/-- The whole walk times out at once in that situation, with no hop
executed. -/
lemma browse_timed {cfg : Config} {env : Nat → HopEnv} {start : Int}
    {st : WalkState} {depth : Nat} {t : Int}
    (htm : cfg.timeout = some t) (ht0 : t ≠ 0)
    (hclock : start + t ≤ (env depth).now)
    (hne : st.links.length ≠ 0) (hd : depth < cfg.maxDepth) :
    browseFromLinks cfg env start st depth = ⟨WalkResult.timedOut, st, []⟩ := by
  unfold browseFromLinks
  have hgas : cfg.maxDepth - depth = (cfg.maxDepth - depth - 1) + 1 := by omega
  rw [hgas]
  simp [browseGas, browseStep_timed htm ht0 hclock hne hd]

/-! ## Claim C1 — frontier dynamics of single-link walks -/

/-- C1 counterexample: the claim promises that a walk whose fetched pages
yield at most one accepted link reaches DeadEnd within
`initial_frontier_size` hops, with no proviso about the session deadline.
Here every fetchable page is empty (zero accepted links), the frontier has
one entry, yet the walk ends in TimedOut after zero hops — it never reaches
DeadEnd — because the deadline (start 0, timeout 1, clock 100) has passed. -/
theorem c1_counterexample :
    (∀ d, (fxEnvLate d).fetch = ReqOutcome.ok "") ∧
    (∀ l bl, (extractUrls "" l bl).length ≤ 1) ∧
    browseFromLinks fxCfgT fxEnvLate 0 ⟨["http://a.com"], []⟩ 0 =
      ⟨WalkResult.timedOut, ⟨["http://a.com"], []⟩, []⟩ :=
  ⟨fun _ => rfl, fun _ _ => Nat.zero_le 1, by decide⟩

/-- C1 (amended): provided the session deadline never fires, no fetch raises
anything the walk's handler cannot absorb (only `ClientError`), and the sleep
range is well-formed, a walk whose every fetched page yields at most one
accepted link ends in DeadEnd; each of its hops removes exactly one entry —
the just-visited URL — from the frontier (leaving the rest unchanged, as
`List.erase` of that URL) and appends that URL to the blacklist; the number
of hops is at most the initial frontier size.  Moreover (second conjunct,
unconditionally on those provisos): whenever a fetched page yields more than
one accepted link, the frontier is entirely replaced by that page's accepted
link set. -/
theorem c1_walk_dead_end_amended :
    (∀ (cfg : Config) (env : Nat → HopEnv) (start : Int) (st : WalkState),
      cfg.minSleep < cfg.maxSleep →
      (∀ d, isTimeoutReached cfg.timeout start (env d).now = false) →
      (∀ d e, request (env d).fetch = Except.error e → e = PyExc.clientError) →
      (∀ d body, request (env d).fetch = Except.ok body →
        ∀ l bl, (extractUrls body l bl).length ≤ 1) →
      (browseFromLinks cfg env start st 0).result = WalkResult.deadEnd ∧
      (browseFromLinks cfg env start st 0).hopDepths.length ≤ st.links.length ∧
      ∃ vs : List String,
        vs.length = (browseFromLinks cfg env start st 0).hopDepths.length ∧
        (browseFromLinks cfg env start st 0).final.blacklist = st.blacklist ++ vs ∧
        (browseFromLinks cfg env start st 0).final.links =
          vs.foldl (fun l v => l.erase v) st.links ∧
        st.links.length =
          (browseFromLinks cfg env start st 0).final.links.length + vs.length) ∧
    (∀ (cfg : Config) (env : Nat → HopEnv) (start : Int) (st : WalkState)
        (depth : Nat) (body : String),
      st.links.length ≠ 0 → depth < cfg.maxDepth →
      isTimeoutReached cfg.timeout start (env depth).now = false →
      request (env depth).fetch = Except.ok body →
      cfg.minSleep < cfg.maxSleep →
      1 < (extractUrls body (chooseLink st (env depth).idx) st.blacklist).length →
      browseStep cfg env start st depth = StepOut.cont
        ⟨extractUrls body (chooseLink st (env depth).idx) st.blacklist,
          st.blacklist⟩) := by
  constructor
  · intro cfg env start st hS hT hE h1
    obtain ⟨vs, hres, hbl, hlks, hlen, hcount⟩ :=
      browseGas_single cfg env start hS hT hE h1 (cfg.maxDepth - 0) st 0
    have hbrowse : browseFromLinks cfg env start st 0 =
        browseGas cfg env start (cfg.maxDepth - 0) st 0 := rfl
    rw [hbrowse]
    exact ⟨hres, by omega, vs, hlen, hbl, hlks, hcount⟩
  · intro cfg env start st depth body hne hd hT hreq hS hmany
    unfold browseStep
    rw [if_neg (not_or.mpr ⟨hne, by omega⟩), hT]
    simp only [Bool.false_eq_true, if_false]
    rw [hreq]
    simp only [browseHandle]
    rw [if_neg (by omega), if_pos hmany]

/-- C1 witness: a two-link frontier of empty pages dead-ends; a page with two
accepted links replaces a one-link frontier. -/
theorem c1_walk_dead_end_witness :
    (browseFromLinks fxCfg fxEnvEmpty 0
        ⟨["http://a.com", "http://b.com"], []⟩ 0).result = WalkResult.deadEnd ∧
    browseStep fxCfg (fun _ => ⟨0, ReqOutcome.ok fxBody2, 0⟩) 0
        ⟨["http://a.com"], []⟩ 0 = StepOut.cont
      ⟨extractUrls fxBody2
        (chooseLink ⟨["http://a.com"], []⟩ ((fun _ => (⟨0, ReqOutcome.ok fxBody2, 0⟩ : HopEnv)) 0).idx) [],
        []⟩ :=
  ⟨(c1_walk_dead_end_amended.1 fxCfg fxEnvEmpty 0
      ⟨["http://a.com", "http://b.com"], []⟩ (by decide) (fun _ => rfl)
      (fun _ _ h => nomatch h)
      (fun _ body h _ _ => by cases h; exact Nat.zero_le 1)).1,
   c1_walk_dead_end_amended.2 fxCfg (fun _ => ⟨0, ReqOutcome.ok fxBody2, 0⟩) 0
      ⟨["http://a.com"], []⟩ 0 fxBody2 (by decide) (by decide) rfl rfl
      (by decide) (by decide)⟩

/-! ## Claim C2 — depth counting and the hop budget -/

/-- C2: for every walk started (as the session loop starts it) at depth 0,
the sequence of depths at which hops execute is exactly `0, 1, 2, …`
(`List.range` of its length) — so the counter starts at 0, advances by
exactly 1 per hop whatever branch the hop takes, and never decreases — and
the number of executed hops never exceeds `max_depth`, whichever of DeadEnd,
TimedOut or an escaping exception ends the walk. -/
theorem c2_depth_bound :
    ∀ (cfg : Config) (env : Nat → HopEnv) (start : Int) (st : WalkState),
      (browseFromLinks cfg env start st 0).hopDepths =
        List.range (browseFromLinks cfg env start st 0).hopDepths.length ∧
      (browseFromLinks cfg env start st 0).hopDepths.length ≤ cfg.maxDepth := by
  intro cfg env start st
  obtain ⟨h1, h2⟩ := browseGas_depths cfg env start (cfg.maxDepth - 0) st 0
  constructor
  · rw [List.range_eq_range']
    exact h1
  · exact le_trans h2 (Nat.sub_le _ _)

/-! ## Claim C3 — deadline detection and propagation -/

/-- C3: with a configured (truthy, i.e. nonzero — cf. C9) timeout, once the
clock reaches `start + timeout`, the very next hop (a step whose dead-end
guard is open) raises the timeout signal without fetching (the walk records
no hop, first two conjuncts); an iteration whose walk timed out reports the
`ended` signal (third conjunct); the loop then finishes the whole run
(fourth conjunct); and with no timeout configured a walk never produces
TimedOut (fifth conjunct). -/
theorem c3_deadline :
    (∀ (cfg : Config) (env : Nat → HopEnv) (start : Int) (st : WalkState)
        (depth : Nat) (t : Int),
      cfg.timeout = some t → t ≠ 0 → start + t ≤ (env depth).now →
      st.links.length ≠ 0 → depth < cfg.maxDepth →
      browseStep cfg env start st depth = StepOut.timed ∧
      browseFromLinks cfg env start st depth = ⟨WalkResult.timedOut, st, []⟩) ∧
    (∀ (cfg : Config) (start : Int) (it : IterEnv) (bl : List String)
        (body : String),
      cfg.rootUrls.length ≠ 0 →
      request it.rootFetch = Except.ok body →
      (browseFromLinks cfg it.hops start
        ⟨extractUrls body (rootChoice cfg it.rootIdx) bl, bl⟩ 0).result =
          WalkResult.timedOut →
      crawlIter cfg start it bl = IterOut.ended
        (browseFromLinks cfg it.hops start
          ⟨extractUrls body (rootChoice cfg it.rootIdx) bl, bl⟩ 0).final.blacklist) ∧
    (∀ (cfg : Config) (env : Nat → IterEnv) (start : Int) (i fuel : Nat)
        (bl bl' : List String),
      crawlIter cfg start (env i) bl = IterOut.ended bl' →
      crawl cfg env start i (fuel + 1) bl = CrawlResult.finished bl') ∧
    (∀ (cfg : Config) (env : Nat → HopEnv) (start : Int) (st : WalkState)
        (depth : Nat), cfg.timeout = none →
      (browseFromLinks cfg env start st depth).result ≠ WalkResult.timedOut) := by
  refine ⟨?_, ?_, ?_, ?_⟩
  · intro cfg env start st depth t htm ht0 hclock hne hd
    exact ⟨browseStep_timed htm ht0 hclock hne hd,
      browse_timed htm ht0 hclock hne hd⟩
  · intro cfg start it bl body hroots hreq hw
    unfold crawlIter
    rw [if_neg hroots, hreq]
    simp only [hw]
  · intro cfg env start i fuel bl bl' hit
    simp [crawl, hit]
  · intro cfg env start st depth h
    exact browse_no_timeout (Or.inl h) st depth

/-- C3 witness: all deadline clauses at concrete inputs. -/
theorem c3_deadline_witness :
    browseStep fxCfgT fxEnvLate 0 ⟨["http://a.com"], []⟩ 0 = StepOut.timed ∧
    crawl fxCfgT fxIterTimed 0 0 1 [] = CrawlResult.finished [] ∧
    (browseFromLinks fxCfg fxEnvLate 0 ⟨["http://a.com"], []⟩ 0).result ≠
      WalkResult.timedOut :=
  ⟨(c3_deadline.1 fxCfgT fxEnvLate 0 ⟨["http://a.com"], []⟩ 0 1 rfl
      (by decide) (by decide) (by decide) (by decide)).1,
   c3_deadline.2.2.1 fxCfgT fxIterTimed 0 0 0 [] [] (by decide),
   c3_deadline.2.2.2 fxCfg fxEnvLate 0 ⟨["http://a.com"], []⟩ 0 rfl⟩

/-! ## Claim C4 — classification of failures at the session loop -/

/-- C4 counterexample: the claim says any non-TimedOut failure inside a
session-loop iteration is logged and the loop continues.  But `crawl` has no
catch-all handler: an unclassified exception raised while reading the root
response body (e.g. a decode error) crashes the run on the very first
iteration. -/
theorem c4_counterexample :
    crawl fxCfg fxIterOther 0 0 1 [] = CrawlResult.crashed PyExc.other [] := by
  decide

/-- C4 (amended): inside one session-loop iteration, `aiohttp.ClientError`,
`MemoryError` and `LocationParseError` are absorbed and the loop continues
with the next iteration; the TimedOut signal alone ends the loop gracefully;
any *other* exception is not caught and crashes the run. -/
theorem c4_session_loop_amended :
    (∀ (cfg : Config) (env : Nat → IterEnv) (start : Int) (i fuel : Nat)
        (bl bl' : List String),
      crawlIter cfg start (env i) bl = IterOut.exc PyExc.clientError bl' →
      crawl cfg env start i (fuel + 1) bl = crawl cfg env start (i + 1) fuel bl') ∧
    (∀ (cfg : Config) (env : Nat → IterEnv) (start : Int) (i fuel : Nat)
        (bl bl' : List String),
      crawlIter cfg start (env i) bl = IterOut.exc PyExc.memoryError bl' →
      crawl cfg env start i (fuel + 1) bl = crawl cfg env start (i + 1) fuel bl') ∧
    (∀ (cfg : Config) (env : Nat → IterEnv) (start : Int) (i fuel : Nat)
        (bl bl' : List String),
      crawlIter cfg start (env i) bl = IterOut.exc PyExc.locationParseError bl' →
      crawl cfg env start i (fuel + 1) bl = crawl cfg env start (i + 1) fuel bl') ∧
    (∀ (cfg : Config) (env : Nat → IterEnv) (start : Int) (i fuel : Nat)
        (bl bl' : List String),
      crawlIter cfg start (env i) bl = IterOut.ended bl' →
      crawl cfg env start i (fuel + 1) bl = CrawlResult.finished bl') ∧
    (∀ (cfg : Config) (env : Nat → IterEnv) (start : Int) (i fuel : Nat)
        (bl bl' : List String),
      crawlIter cfg start (env i) bl = IterOut.exc PyExc.other bl' →
      crawl cfg env start i (fuel + 1) bl = CrawlResult.crashed PyExc.other bl') := by
  refine ⟨?_, ?_, ?_, ?_, ?_⟩ <;>
    · intro cfg env start i fuel bl bl' hit
      simp [crawl, hit]

/-- C4 witness: an absorbed `ClientError` continues the loop; an unclassified
exception crashes it. -/
theorem c4_session_loop_witness :
    crawl fxCfg fxIterClient 0 0 1 [] = crawl fxCfg fxIterClient 0 1 0 [] ∧
    crawl fxCfg fxIterOther 0 5 1 [] = CrawlResult.crashed PyExc.other [] :=
  ⟨c4_session_loop_amended.1 fxCfg fxIterClient 0 0 0 [] [] (by decide),
   c4_session_loop_amended.2.2.2.2 fxCfg fxIterOther 0 5 0 [] [] (by decide)⟩

/-! ## Claim C5 — the acceptance filter's grammar -/

/-- C5 counterexample: `http://a.b2` is accepted by the code (its regex's
final-label alternative `[A-Z0-9-]{2,}` admits `b2`), is non-empty and not
blacklisted, yet does not match the grammar the claim states (final label
alphabetic of length ≥ 2) — so acceptance is not equivalent to the claimed
grammar-plus-blacklist condition. -/
theorem c5_counterexample :
    shouldAcceptUrl [] "http://a.b2" = true ∧
    specValidUrl "http://a.b2" = false := ⟨by decide, by decide⟩

/-- C5 (amended): a candidate is accepted iff it is non-empty, matches the
code's regex `^(?:http|ftp)s?://((label\.)+(…final…)|IPv4)(:\d+)?(/?|[/?]\S+)$`
— where each non-final label is 1-63 alphanumeric/hyphen characters starting
and ending alphanumeric, at least one dot-terminated label must precede the
final component, and the final component is either 2-6 alphabetic characters
or **any** ≥ 2 alphanumeric/hyphen characters, optionally dot-terminated —
and contains no blacklist entry as a literal substring.  The named spec
examples hold; the remaining conjuncts pin the grammar facets that differ
from the claim's wording. -/
theorem c5_url_filter_amended :
    (∀ bl url, shouldAcceptUrl bl url =
      (!url.data.isEmpty && isValidUrl url && !isBlacklisted bl url)) ∧
    isValidUrl "javascript:void(0)" = false ∧
    isValidUrl "https://example.com/path?q=1" = true ∧
    isValidUrl "http://a.b2" = true ∧
    isValidUrl "http://ab" = false ∧
    isValidUrl "http://a-.com" = false ∧
    isValidUrl "http://1.2.3.4" = true ∧
    isValidUrl "HTTP://EXAMPLE.COM/" = true ∧
    (∀ bl url b, b ∈ bl → containsSub url.data b.data = true →
      shouldAcceptUrl bl url = false) :=
  ⟨fun _ _ => rfl, by decide, by decide, by decide, by decide, by decide,
   by decide, by decide, fun _ _ _ hb hc => shouldAccept_of_blacklisted hb hc⟩

/-- C5 witness: the blacklist clause at a concrete input. -/
theorem c5_url_filter_witness :
    shouldAcceptUrl ["bad"] "https://bad.example.com/x" = false :=
  c5_url_filter_amended.2.2.2.2.2.2.2.2 ["bad"] "https://bad.example.com/x"
    "bad" (by simp) (by decide)

/-! ## Claim C6 — link normalization -/

/-- C6: a parseable reference literally beginning with `//` is mapped to the
root's scheme followed by the reference's authority and path (query and
fragment dropped, exactly as the source's f-string does); a parseable
scheme-less reference (not beginning with `//`) is resolved against the root
by standard relative resolution (`urljoin`); a parseable reference with a
scheme — such references never begin with `//`, since a leading `//` always
parses as an empty scheme — is returned unchanged; and the spec's concrete
examples evaluate as claimed (note ` //example.com/a` carries a leading
space, so it takes the resolution branch, whose whitespace-stripping parse
still yields the claimed result). -/
theorem c6_normalize :
    (∀ (link root : String) (pl : PRes), urlparseM link [] = some pl →
      link.data.take 2 = ['/', '/'] →
      normalizeLink link root = some (String.mk
        (((urlparseM root []).getD emptyPRes).scheme ++ "://".data ++
          pl.netloc ++ pl.path))) ∧
    (∀ (link root : String) (pl : PRes), urlparseM link [] = some pl →
      ¬link.data.take 2 = ['/', '/'] → pl.scheme = [] →
      normalizeLink link root = some (urljoinM root link)) ∧
    (∀ (link root : String) (pl : PRes), urlparseM link [] = some pl →
      ¬link.data.take 2 = ['/', '/'] → ¬pl.scheme = [] →
      normalizeLink link root = some link) ∧
    normalizeLink " //example.com/a" "https://root.com/x" =
      some "https://example.com/a" ∧
    normalizeLink "/images" "https://imgur.com/foo" =
      some "https://imgur.com/images" ∧
    normalizeLink "https://other.com/y" "https://root.com" =
      some "https://other.com/y" := by
  refine ⟨?_, ?_, ?_, by decide, by decide, by decide⟩
  · intro link root pl hp h2
    simp only [normalizeLink, hp]
    rw [h2]
    simp
  · intro link root pl hp h2 hsch
    have hcond : (link.data.take 2 == ['/', '/']) = false := by
      simp [h2]
    simp only [normalizeLink, hp, hcond]
    simp [hsch]
  · intro link root pl hp h2 hsch
    have hcond : (link.data.take 2 == ['/', '/']) = false := by
      simp [h2]
    have hsch' : pl.scheme.isEmpty = false := by
      cases hs : pl.scheme with
      | nil => exact absurd hs hsch
      | cons a t => rfl
    simp only [normalizeLink, hp, hcond, hsch']
    simp

/-- C6 witness: each branch exercised at a concrete input. -/
theorem c6_normalize_witness :
    normalizeLink "//cdn.img.io/p?q=1" "https://r.io/q" = some (String.mk
      (((urlparseM "https://r.io/q" []).getD emptyPRes).scheme ++ "://".data ++
        "cdn.img.io".data ++ "/p".data)) ∧
    normalizeLink "img/pic.png" "https://r.io/a/b" =
      some (urljoinM "https://r.io/a/b" "img/pic.png") ∧
    normalizeLink "ftp://files.org/x" "https://r.io" = some "ftp://files.org/x" :=
  ⟨c6_normalize.1 "//cdn.img.io/p?q=1" "https://r.io/q"
      ⟨[], "cdn.img.io".data, "/p".data, [], "q=1".data, []⟩ (by decide) (by decide),
   c6_normalize.2.1 "img/pic.png" "https://r.io/a/b"
      ⟨[], [], "img/pic.png".data, [], [], []⟩ (by decide) (by decide) (by decide),
   c6_normalize.2.2.1 "ftp://files.org/x" "https://r.io"
      ⟨"ftp".data, "files.org".data, "/x".data, [], [], []⟩ (by decide)
      (by decide) (by decide)⟩

/-! ## Claim C7 — the fetcher's error contract -/

/-- C7 counterexample: the claim says the fetcher never propagates a
per-request failure as an exception.  But `await resp.text()` is outside
`_request`'s `try`: a transport error raised while reading the body
propagates (`Except.error`, first conjunct), and when the escaping class is
not `aiohttp.ClientError` it even escapes the whole walk (second conjunct,
a `MemoryError` during the body read). -/
theorem c7_counterexample :
    request (ReqOutcome.bodyRaises PyExc.clientError) =
      Except.error PyExc.clientError ∧
    (browseFromLinks fxCfg fxEnvMem 0 ⟨["http://a.com"], []⟩ 0).result =
      WalkResult.raised PyExc.memoryError := ⟨rfl, by decide⟩

/-- C7 (amended): `_request` returns the empty string when the connection
attempt or the status check raises (those are inside its `try`) and the body
text on success, but a failure raised while *reading* the body propagates as
an exception to the caller; a propagated `ClientError` is then absorbed by
the walk's transport branch, which removes and blacklists the visited link,
while any other escaping class aborts the walk. -/
theorem c7_request_amended :
    request ReqOutcome.connFail = Except.ok "" ∧
    request ReqOutcome.httpError = Except.ok "" ∧
    (∀ body, request (ReqOutcome.ok body) = Except.ok body) ∧
    (∀ e, request (ReqOutcome.bodyRaises e) = Except.error e) ∧
    (∀ (cfg : Config) (env : Nat → HopEnv) (start : Int) (st : WalkState)
        (depth : Nat),
      st.links.length ≠ 0 → depth < cfg.maxDepth →
      isTimeoutReached cfg.timeout start (env depth).now = false →
      (env depth).fetch = ReqOutcome.bodyRaises PyExc.clientError →
      browseStep cfg env start st depth =
        StepOut.cont (removeAndBlacklist st (chooseLink st (env depth).idx))) ∧
    (∀ (cfg : Config) (env : Nat → HopEnv) (start : Int) (st : WalkState)
        (depth : Nat),
      st.links.length ≠ 0 → depth < cfg.maxDepth →
      isTimeoutReached cfg.timeout start (env depth).now = false →
      (env depth).fetch = ReqOutcome.bodyRaises PyExc.memoryError →
      (browseFromLinks cfg env start st depth).result =
        WalkResult.raised PyExc.memoryError) := by
  refine ⟨rfl, rfl, fun _ => rfl, fun _ => rfl, ?_, ?_⟩
  · intro cfg env start st depth hne hd hT hf
    unfold browseStep
    rw [if_neg (not_or.mpr ⟨hne, by omega⟩), hT]
    simp only [Bool.false_eq_true, if_false]
    rw [hf]
    rfl
  · intro cfg env start st depth hne hd hT hf
    have hstep : browseStep cfg env start st depth =
        StepOut.raised PyExc.memoryError := by
      unfold browseStep
      rw [if_neg (not_or.mpr ⟨hne, by omega⟩), hT]
      simp only [Bool.false_eq_true, if_false]
      rw [hf]
      rfl
    unfold browseFromLinks
    have hgas : cfg.maxDepth - depth = (cfg.maxDepth - depth - 1) + 1 := by omega
    rw [hgas]
    simp [browseGas, hstep]

/-- C7 witness: both walk-level clauses at concrete inputs. -/
theorem c7_request_witness :
    browseStep fxCfg (fun _ => ⟨0, ReqOutcome.bodyRaises PyExc.clientError, 0⟩) 0
        ⟨["http://a.com"], []⟩ 0 = StepOut.cont
      (removeAndBlacklist ⟨["http://a.com"], []⟩
        (chooseLink ⟨["http://a.com"], []⟩
          ((fun _ => (⟨0, ReqOutcome.bodyRaises PyExc.clientError, 0⟩ : HopEnv)) 0).idx)) ∧
    (browseFromLinks fxCfg fxEnvMem 0 ⟨["http://b.com"], []⟩ 0).result =
      WalkResult.raised PyExc.memoryError :=
  ⟨c7_request_amended.2.2.2.2.1 fxCfg
      (fun _ => ⟨0, ReqOutcome.bodyRaises PyExc.clientError, 0⟩) 0
      ⟨["http://a.com"], []⟩ 0 (by decide) (by decide) rfl rfl,
   c7_request_amended.2.2.2.2.2 fxCfg fxEnvMem 0 ⟨["http://b.com"], []⟩ 0
      (by decide) (by decide) rfl rfl⟩

/-! ## Claim C8 — blacklist monotonicity -/

/-- C8: over a walk and over any observed stretch of the session loop —
whatever its outcome — the final blacklist is the initial blacklist with
entries appended; no operation ever removes an entry. -/
theorem c8_blacklist_monotone :
    (∀ (cfg : Config) (env : Nat → HopEnv) (start : Int) (st : WalkState)
        (depth : Nat),
      ∃ u, (browseFromLinks cfg env start st depth).final.blacklist =
        st.blacklist ++ u) ∧
    (∀ (cfg : Config) (env : Nat → IterEnv) (start : Int) (i fuel : Nat)
        (bl : List String),
      ∃ u, crawlBl (crawl cfg env start i fuel bl) = bl ++ u) :=
  ⟨browse_blacklist_acc,
   fun cfg env start i fuel bl => crawl_blacklist_acc cfg env start fuel i bl⟩

/-! ## Claim C9 — a zero timeout means no timeout -/

/-- C9: `_is_timeout_reached` is falsy both when the `timeout` option is
missing and when it is the integer 0 (the walrus `if timeout := ...` guard
tests truthiness), so in both cases the walk never raises the timeout signal
and the session loop never reaches its graceful `finished` exit — a zero
timeout does not mean "expire immediately". -/
theorem c9_zero_timeout :
    (∀ start now, isTimeoutReached (some 0) start now = false) ∧
    (∀ start now, isTimeoutReached none start now = false) ∧
    (∀ (cfg : Config) (env : Nat → HopEnv) (start : Int) (st : WalkState)
        (depth : Nat), cfg.timeout = none ∨ cfg.timeout = some 0 →
      (browseFromLinks cfg env start st depth).result ≠ WalkResult.timedOut) ∧
    (∀ (cfg : Config) (env : Nat → IterEnv) (start : Int) (i fuel : Nat)
        (bl bl' : List String), cfg.timeout = none ∨ cfg.timeout = some 0 →
      crawl cfg env start i fuel bl ≠ CrawlResult.finished bl') :=
  ⟨fun _ _ => rfl, fun _ _ => rfl,
   fun _ _ _ st depth h => browse_no_timeout h st depth,
   fun _ _ _ i fuel bl bl' h => crawl_not_finished h fuel i bl bl'⟩

/-- C9 witness: with `timeout = 0` a deadline-expired walk still dead-ends
and the session loop does not finish. -/
theorem c9_zero_timeout_witness :
    (browseFromLinks fxCfgZ fxEnvLate 0 ⟨["http://a.com"], []⟩ 0).result ≠
      WalkResult.timedOut ∧
    crawl fxCfgZ fxIterTimed 0 0 3 [] ≠ CrawlResult.finished [] :=
  ⟨c9_zero_timeout.2.2.1 fxCfgZ fxEnvLate 0 ⟨["http://a.com"], []⟩ 0 (Or.inr rfl),
   c9_zero_timeout.2.2.2 fxCfgZ fxIterTimed 0 0 3 [] [] (Or.inr rfl)⟩

/-! ## Claim C10 — a blacklisted URL never comes back -/

/-- C10: immediately after `_remove_and_blacklist`, the acceptance check of
that exact URL is false (a string contains itself as a substring); more
generally any URL containing any blacklisted entry is rejected; blacklist
membership persists through any walk; and a frontier built by `_extract_urls`
never contains a URL with a blacklisted substring — so a blacklisted URL can
never re-enter the frontier. -/
theorem c10_blacklist_permanent :
    (∀ st link, shouldAcceptUrl (removeAndBlacklist st link).blacklist link = false) ∧
    (∀ bl url b, b ∈ bl → containsSub url.data b.data = true →
      shouldAcceptUrl bl url = false) ∧
    (∀ (cfg : Config) (env : Nat → HopEnv) (start : Int) (st : WalkState)
        (depth : Nat) (b : String), b ∈ st.blacklist →
      b ∈ (browseFromLinks cfg env start st depth).final.blacklist) ∧
    (∀ (body root : String) (bl : List String) (url : String),
      url ∈ extractUrls body root bl →
      ∀ b ∈ bl, containsSub url.data b.data = false) := by
  refine ⟨?_, ?_, ?_, ?_⟩
  · intro st link
    exact shouldAccept_of_blacklisted
      (by simp [removeAndBlacklist]) (containsSub_self link.data)
  · intro bl url b hb hc
    exact shouldAccept_of_blacklisted hb hc
  · intro cfg env start st depth b hb
    obtain ⟨u, hu⟩ := browse_blacklist_acc cfg env start st depth
    rw [hu]
    exact List.mem_append_left u hb
  · intro body root bl url hmem
    exact extractUrls_not_blacklisted hmem

/-- C10 witness: substring-rejection, persistence and frontier-exclusion at
concrete inputs. -/
theorem c10_blacklist_permanent_witness :
    shouldAcceptUrl ["http://y.com"] "http://y.com/page" = false ∧
    "http://z.com" ∈ (browseFromLinks fxCfg fxEnvEmpty 0
      ⟨[], ["http://z.com"]⟩ 0).final.blacklist :=
  ⟨c10_blacklist_permanent.2.1 ["http://y.com"] "http://y.com/page"
      "http://y.com" (by simp) (by decide),
   c10_blacklist_permanent.2.2.1 fxCfg fxEnvEmpty 0 ⟨[], ["http://z.com"]⟩ 0
      "http://z.com" (by simp)⟩

end Noisy
